import Mathlib

/-!
Verification of the quiz-extraction core of `bot.py` (quizify-ai-bot).

The Python source is shallowly embedded: each pure fragment of `bot.py`
becomes a Lean function over `String` / `List Char`.  The process-wide
random source used by `random.shuffle` is made explicit as a parameter
`p : List Nat` listing, in post-shuffle order, the original positions of
the shuffled elements; a genuine shuffle outcome is any `p` with
`p.Perm (List.range 4)`.  Network calls are out of scope: the raw model
response is an input string.
-/

/-! ### Character classes and string helpers (bot.py regex building blocks) -/

/-- The character class `[:\s\-]` used by the question-strip and
correct-answer regexes of `bot.py` (lines 107, 144, 151). -/
def sepClass (c : Char) : Bool := c == ':' || c == '-' || c.isWhitespace

/-- `[A-D]` with `re.IGNORECASE` (bot.py lines 118, 130, 144, 151). -/
def isOptLetter (c : Char) : Bool :=
  c == 'A' || c == 'B' || c == 'C' || c == 'D' ||
  c == 'a' || c == 'b' || c == 'c' || c == 'd'

/-- The option separator class `[\).:\-]` of the strict option regex
(bot.py line 118). -/
def optSep (c : Char) : Bool := c == ')' || c == '.' || c == ':' || c == '-'

/-- Python `str.strip()` on a character list: drop whitespace from both ends. -/
def trimChars (l : List Char) : List Char :=
  ((l.dropWhile Char.isWhitespace).reverse.dropWhile Char.isWhitespace).reverse

/-- Split a character list at every `\n` or `\r`.  Together with the
blank-line filter below this models Python `str.splitlines()` (a
`\r\n` pair just contributes one extra blank field, which is filtered). -/
def splitChars : List Char → List (List Char)
  | [] => [[]]
  | c :: cs =>
    let r := splitChars cs
    if c == '\n' || c == '\r' then [] :: r
    else
      match r with
      | [] => [[c]]
      | h :: t => (c :: h) :: t

/-- bot.py line 100: `[ln.strip() for ln in response.splitlines() if ln.strip()]`. -/
def splitLines (raw : String) : List String :=
  ((splitChars raw.data).map (fun l => String.mk (trimChars l))).filter
    (fun l => l != "")

/-- Python substring test `needle in s`. -/
def containsSub (needle : List Char) : List Char → Bool
  | [] => needle.isEmpty
  | c :: cs => needle.isPrefixOf (c :: cs) || containsSub needle cs

/-! ### Question extraction (bot.py lines 102-114) -/

/-- `re.match(r"(?i)^question[:\-\s]", line)` (bot.py line 106): the line
starts with `question` case-insensitively, followed by one `[:\-\s]` char. -/
def questionPrefixMatches (line : String) : Bool :=
  ((line.data.take 8).map Char.toLower == "question".data) &&
  (match line.data.drop 8 with
   | c :: _ => sepClass c
   | [] => false)

/-- `re.sub(r'(?i)^question[:\-\s]*', '', line).strip()` (bot.py line 107),
applied when the prefix is known to match: drop the 8 prefix characters and
the greedy run of `[:\-\s]` characters, then strip. -/
def questionRemainder (line : String) : String :=
  String.mk (trimChars ((line.data.drop 8).dropWhile sepClass))

/-- One iteration of the question scan (bot.py lines 104-112): the
`question`-prefix rule is tried on the line first, then the `"?" in line`
heuristic; either one stops the scan.  Lines produced by `splitLines`
contain no newline, so `.+` in the regex is just "nonempty remainder". -/
def lineQuestion (line : String) : Option String :=
  if questionPrefixMatches line then some (questionRemainder line)
  else if line.data.contains '?' then some (String.mk (trimChars line.data))
  else none

/-- bot.py line 114: the synthesized fallback question. -/
def defaultQuestion (topic : String) : String :=
  "What is the correct answer about " ++ topic ++ "?"

/-- bot.py lines 102-114: first line matching either question rule wins;
`if not question:` replaces both a missing and an empty result by the
synthesized default. -/
def extractQuestion (topic : String) (lines : List String) : String :=
  match lines.findSome? lineQuestion with
  | some q => if q = "" then defaultQuestion topic else q
  | none => defaultQuestion topic

/-! ### Option extraction (bot.py lines 116-139) -/

/-- Strict option pattern `^[A-D][\).:\-]\s*(.+)$` with IGNORECASE
(bot.py line 118) on a newline-free line; the captured group is stripped
(bot.py line 122), which makes the greedy `\s*` irrelevant. -/
def strictOpt (line : String) : Option String :=
  match line.data with
  | c0 :: c1 :: rest =>
    if isOptLetter c0 && optSep c1 && !rest.isEmpty then
      some (String.mk (trimChars rest))
    else none
  | _ => none

/-- Loose option pattern `^([A-D])\s+(.+)$` with IGNORECASE (bot.py
line 130) on a newline-free line; group 2 is stripped (bot.py line 132). -/
def looseOpt (line : String) : Option String :=
  match line.data with
  | c0 :: c1 :: rest =>
    if isOptLetter c0 && c1.isWhitespace && !rest.isEmpty then
      some (String.mk (trimChars rest))
    else none
  | _ => none

/-- Strict collection loop (bot.py lines 119-124): append each match,
break as soon as 4 options are collected. -/
def collectStrict : List String → List String → List String
  | [], acc => acc
  | l :: ls, acc =>
    let acc' := match strictOpt l with
      | some o => acc ++ [o]
      | none => acc
    if acc'.length == 4 then acc' else collectStrict ls acc'

/-- Loose collection loop (bot.py lines 128-135): append a match only when
its text is not already collected, break at 4. -/
def collectLoose : List String → List String → List String
  | [], acc => acc
  | l :: ls, acc =>
    let acc' := match looseOpt l with
      | some o => if o ∈ acc then acc else acc ++ [o]
      | none => acc
    if acc'.length == 4 then acc' else collectLoose ls acc'

/-- The two option passes (bot.py lines 117-135): the loose pass runs only
when the strict pass found fewer than 4 options, and continues from them. -/
def extractOptionsCore (lines : List String) : List String :=
  let o1 := collectStrict lines []
  if o1.length < 4 then collectLoose lines o1 else o1

/-- Padding loop body (bot.py lines 138-139), run with enough fuel: while
fewer than 4 options, append `f"{topic} Option {chr(65 + len(options))}"`.
Fuel 4 suffices for every starting length. -/
def padOptionsAux : Nat → List String → String → List String
  | 0, options, _ => options
  | fuel + 1, options, topic =>
    if options.length < 4 then
      padOptionsAux fuel
        (options ++ [topic ++ " Option " ++ String.mk [Char.ofNat (65 + options.length)]])
        topic
    else options

/-- bot.py lines 137-139. -/
def padOptions (topic : String) (options : List String) : List String :=
  padOptionsAux 4 options topic

/-- Full option extraction (bot.py lines 116-139). -/
def extractOptions (topic : String) (lines : List String) : List String :=
  padOptions topic (extractOptionsCore lines)

/-! ### Correct-letter extraction (bot.py lines 141-161) -/

/-- Attempt of `word[:\s\-]*([A-D])` (IGNORECASE) at the head of `s`:
the literal word matches case-insensitively, then the greedy `[:\s\-]*`
run, then one letter A-D.  Backtracking the star cannot help, because the
separator class and the letter class are disjoint. -/
def matchCorrectAt (word : List Char) (s : List Char) : Option Char :=
  if (s.take word.length).map Char.toLower == word then
    match (s.drop word.length).dropWhile sepClass with
    | c :: _ => if isOptLetter c then some c.toUpper else none
    | [] => none
  else none

/-- `re.search` semantics: try `matchCorrectAt` at every position, left to
right (bot.py lines 144, 151); the letter is returned uppercased
(bot.py lines 146, 153). -/
def searchWord (word : List Char) : List Char → Option Char
  | [] => none
  | c :: cs =>
    match matchCorrectAt word (c :: cs) with
    | some L => some L
    | none => searchWord word cs

/-- bot.py lines 142-154: scan all lines for `correct...[A-D]` first and
only on total failure rescan all lines for `answer...[A-D]`. -/
def extractCorrectLetter (lines : List String) : Option Char :=
  match lines.findSome? (fun l => searchWord "correct".data l.data) with
  | some L => some L
  | none => lines.findSome? (fun l => searchWord "answer".data l.data)

/-- Pre-shuffle correct index (bot.py lines 156-161): `ord(letter) - 65`
with the defensive clamp of line 160, default 0 when no letter was found. -/
def correct_index (lines : List String) : Nat :=
  match extractCorrectLetter lines with
  | none => 0
  | some L => if L.toNat - 65 < 4 then L.toNat - 65 else 0

/-! ### Shuffle and assembled extraction (bot.py lines 163-174) -/

/-- The result of `indexed = list(enumerate(options)); random.shuffle(indexed)`
(bot.py lines 164-165), with the shuffle outcome made explicit: `p` lists
the original positions in their post-shuffle order. -/
def applyShuffle (p : List Nat) (options : List String) : List (Nat × String) :=
  p.map (fun i => (i, options.getD i ""))

/-- bot.py lines 163-172 for a determined original index: the shuffled
texts, and `next((i for i, (o, _) in enumerate(indexed) if o == orig_correct), 0)`. -/
def shuffleWithCorrect (p : List Nat) (options : List String) (orig_correct : Nat) :
    List String × Nat :=
  let indexed := applyShuffle p options
  (indexed.map Prod.snd,
   if indexed.any (fun q => q.1 == orig_correct) then
     indexed.findIdx (fun q => q.1 == orig_correct)
   else 0)

/-- The extractor's output triple (bot.py line 174). -/
structure ParsedQuiz where
  question : String
  options : List String
  correctIndex : Nat
deriving DecidableEq, Repr

/-- `generate_quiz` (bot.py lines 83-174) minus the network call: `raw` is
the model response, `p` the shuffle outcome.  When no correct letter was
determined, `new_correct` is literally 0 (bot.py lines 168-169); otherwise
it is the post-shuffle position of the original index (lines 170-172). -/
def generate_quiz (topic raw : String) (p : List Nat) : ParsedQuiz :=
  let lines := splitLines raw
  let options := extractOptions topic lines
  let new_correct :=
    match extractCorrectLetter lines with
    | none => 0
    | some L => (shuffleWithCorrect p options (L.toNat - 65)).2
  { question := extractQuestion topic lines
    options := (applyShuffle p options).map Prod.snd
    correctIndex := new_correct }

/-! ### Intent classification (bot.py lines 243-258) -/

/-- The result of classifying one free-form message. -/
inductive Intent where
  | generateQuiz (topic : String) (count : Nat)
  | converse (text : String)
deriving DecidableEq, Repr

/-- The alternation `create|make|quiz|quizzes|question|questions` of
bot.py line 253, in source order: Python alternation takes the first
branch that matches, so `quiz` shadows `quizzes` and `question` shadows
`questions`. -/
def triggerWords : List (List Char) :=
  ["create".data, "make".data, "quiz".data, "quizzes".data,
   "question".data, "questions".data]

/-- Length of the trigger-pattern match at the head of `s`, if any: first
word alternative in order, else a maximal digit run (`\d+`). -/
def matchTrigger (s : List Char) : Option Nat :=
  match triggerWords.findSome?
      (fun w => if w.isPrefixOf s then some w.length else none) with
  | some n => some n
  | none =>
    match s with
    | c :: _ => if c.isDigit then some ((s.takeWhile Char.isDigit).length) else none
    | [] => none

/-- `re.sub(pattern, "", lower)` scan (bot.py line 253) with explicit fuel;
every match is nonempty, so fuel `s.length` is enough. -/
def stripTriggersAux : Nat → List Char → List Char
  | 0, s => s
  | fuel + 1, s =>
    match s with
    | [] => []
    | c :: cs =>
      match matchTrigger (c :: cs) with
      | some n => stripTriggersAux fuel (cs.drop (n - 1))
      | none => c :: stripTriggersAux fuel cs

/-- bot.py line 253: delete every leftmost-first trigger match. -/
def stripTriggers (s : List Char) : List Char :=
  stripTriggersAux s.length s

/-- `int()` of a nonempty decimal digit run. -/
def digitsToNat (ds : List Char) : Nat :=
  ds.foldl (fun a c => 10 * a + (c.toNat - 48)) 0

/-- `re.search(r"(\d+)\s+quiz", lower)` (bot.py line 249): at the leftmost
viable position, a maximal digit run, at least one whitespace char, then
the literal `quiz`.  Backtracking shorter runs cannot succeed because a
digit is not whitespace and whitespace is not `q`. -/
def findCount : List Char → Option Nat
  | [] => none
  | c :: cs =>
    match
      (if c.isDigit then
        let ds := (c :: cs).takeWhile Char.isDigit
        let rest1 := (c :: cs).dropWhile Char.isDigit
        let rest2 := rest1.dropWhile Char.isWhitespace
        if !(rest1.takeWhile Char.isWhitespace).isEmpty &&
            "quiz".data.isPrefixOf rest2 then
          some (digitsToNat ds)
        else none
      else none) with
    | some n => some n
    | none => findCount cs

/-- `handle_message` (bot.py lines 243-258) up to the choice of action:
strip the message, lower it, read the count, strip trigger words for the
topic (default "General Knowledge"), and branch on whether `quiz` or
`question` occurs in the lowered text; the conversational branch passes
the stripped original text to the model. -/
def classify (text : String) : Intent :=
  let user_input := String.mk (trimChars text.data)
  let lower := String.mk (user_input.data.map Char.toLower)
  let count := (findCount lower.data).getD 1
  let topic0 := String.mk (trimChars (stripTriggers lower.data))
  let topic := if topic0 = "" then "General Knowledge" else topic0
  if containsSub "quiz".data lower.data || containsSub "question".data lower.data then
    Intent.generateQuiz topic count
  else
    Intent.converse user_input

/-! ### Batch orchestration (bot.py lines 177-201) -/

/-- Observable loop state of `send_quizzes`: quizzes successfully sent,
language-model client invocations (one per `generate_quiz` call, bot.py
lines 99 and 181), and delivery attempts made. -/
structure BatchState where
  total_sent : Nat
  gen_calls : Nat
  attempts : Nat
deriving DecidableEq, Repr

/-- One iteration of the `while total_sent < count` loop (bot.py
lines 180-199): generate a fresh quiz (one client call), attempt delivery;
only a successful delivery increments `total_sent`. -/
def batchStep (deliver : Nat → Bool) (s : BatchState) : BatchState :=
  { total_sent := if deliver s.attempts then s.total_sent + 1 else s.total_sent
    gen_calls := s.gen_calls + 1
    attempts := s.attempts + 1 }

/-- The `send_quizzes` loop with explicit fuel; `none` models an execution
that has not terminated within `fuel` iterations (the Python loop is
unbounded). -/
def runBatch (deliver : Nat → Bool) (count : Nat) : Nat → BatchState → Option BatchState
  | 0, s => if s.total_sent < count then none else some s
  | fuel + 1, s =>
    if s.total_sent < count then runBatch deliver count fuel (batchStep deliver s)
    else some s

/-! ### Helper lemmas -/

/-- The strict collection loop never grows the list beyond 4. -/
theorem collectStrict_length_le (ls : List String) :
    ∀ acc : List String, acc.length < 4 → (collectStrict ls acc).length ≤ 4 := by
  induction ls with
  | nil => intro acc h; simpa [collectStrict] using Nat.le_of_lt h
  | cons l ls ih =>
    intro acc h
    rcases hso : strictOpt l with _ | o
    · simp only [collectStrict, hso]
      rw [if_neg (by simp only [beq_iff_eq]; omega)]
      exact ih acc h
    · simp only [collectStrict, hso]
      by_cases h4 : ((acc ++ [o]).length == 4) = true
      · rw [if_pos h4]
        simp only [beq_iff_eq] at h4
        omega
      · rw [if_neg h4]
        refine ih _ ?_
        simp only [beq_iff_eq, List.length_append, List.length_cons, List.length_nil] at h4 ⊢
        omega

/-- The loose collection loop never grows the list beyond 4. -/
theorem collectLoose_length_le (ls : List String) :
    ∀ acc : List String, acc.length < 4 → (collectLoose ls acc).length ≤ 4 := by
  induction ls with
  | nil => intro acc h; simpa [collectLoose] using Nat.le_of_lt h
  | cons l ls ih =>
    intro acc h
    rcases hso : looseOpt l with _ | o
    · simp only [collectLoose, hso]
      rw [if_neg (by simp only [beq_iff_eq]; omega)]
      exact ih acc h
    · simp only [collectLoose, hso]
      by_cases hmem : o ∈ acc
      · rw [if_pos hmem, if_neg (by simp only [beq_iff_eq]; omega)]
        exact ih acc h
      · rw [if_neg hmem]
        by_cases h4 : ((acc ++ [o]).length == 4) = true
        · rw [if_pos h4]
          simp only [beq_iff_eq] at h4
          omega
        · rw [if_neg h4]
          refine ih _ ?_
          simp only [beq_iff_eq, List.length_append, List.length_cons, List.length_nil] at h4 ⊢
          omega

/-- The two option passes yield at most 4 options. -/
theorem extractOptionsCore_length_le (lines : List String) :
    (extractOptionsCore lines).length ≤ 4 := by
  have h1 := collectStrict_length_le lines [] (by simp)
  simp only [extractOptionsCore]
  split
  · exact collectLoose_length_le lines _ (by assumption)
  · exact h1

/-- Closed form of the padding loop (bot.py lines 137-139) for any starting
list of at most 4 options. -/
theorem padOptions_spec (topic : String) (o : List String) (h : o.length ≤ 4) :
    padOptions topic o =
      o ++ (List.range (4 - o.length)).map
        (fun j => topic ++ " Option " ++ String.mk [Char.ofNat (65 + o.length + j)]) := by
  rcases o with _ | ⟨a, _ | ⟨b, _ | ⟨c, _ | ⟨d, _ | ⟨e, t⟩⟩⟩⟩⟩
  · rfl
  · rfl
  · rfl
  · rfl
  · rfl
  · simp only [List.length_cons] at h; omega

/-- After padding there are always exactly 4 options. -/
theorem extractOptions_length (topic : String) (lines : List String) :
    (extractOptions topic lines).length = 4 := by
  have h := extractOptionsCore_length_le lines
  unfold extractOptions
  rw [padOptions_spec topic _ h]
  simp only [List.length_append, List.length_map, List.length_range]
  omega

/-- The synthesized default question is never empty. -/
theorem defaultQuestion_ne_empty (topic : String) : defaultQuestion topic ≠ "" := by
  intro h
  have h2 := congrArg String.length h
  rw [defaultQuestion] at h2
  simp only [String.length_append] at h2
  have h3 : ("What is the correct answer about " : String).length = 33 := rfl
  have h4 : ("?" : String).length = 1 := rfl
  have h5 : ("" : String).length = 0 := rfl
  omega

/-- The extracted question is never the empty string (bot.py lines 113-114). -/
theorem extractQuestion_ne_empty (topic : String) (lines : List String) :
    extractQuestion topic lines ≠ "" := by
  unfold extractQuestion
  cases h : lines.findSome? lineQuestion with
  | none => exact defaultQuestion_ne_empty topic
  | some q =>
    dsimp only
    by_cases hq : q = ""
    · rw [if_pos hq]; exact defaultQuestion_ne_empty topic
    · rw [if_neg hq]; exact hq

/-- Looking up the snd of the pair found by `findIdx` on a fst-indexed map. -/
theorem getD_map_findIdx (p : List Nat) (f : Nat → String) (k : Nat) (hk : k ∈ p) :
    (p.map f).getD (p.findIdx (fun i => i == k)) "" = f k := by
  induction p with
  | nil => cases hk
  | cons a as ih =>
    by_cases hak : a = k
    · subst hak
      simp [List.findIdx_cons]
    · have hbeq : (a == k) = false := beq_eq_false_iff_ne.mpr hak
      rcases List.mem_cons.mp hk with h | h
      · exact absurd h.symm hak
      · simp only [List.findIdx_cons, List.map_cons, hbeq, cond_false]
        rw [List.getD_cons_succ]
        exact ih h

/-- `findIdx` on the enumerated pairs tests only the original positions. -/
theorem findIdx_pairs (p : List Nat) (f : Nat → String) (k : Nat) :
    (p.map (fun i => (i, f i))).findIdx (fun q => q.1 == k) =
      p.findIdx (fun i => i == k) := by
  induction p with
  | nil => rfl
  | cons a as ih => simp [List.findIdx_cons, ih]

/-! ### Claim theorems -/

/-- Claim C3: for any 4 option strings (duplicates allowed), any determined
correct index in [0,3] and any of the 24 possible shuffle outcomes, the
shuffled option list at the remapped index holds exactly the string that
stood at the original index before shuffling. -/
theorem shuffle_round_trip (a b c d : String) (k : Nat) (p : List Nat)
    (hk : k < 4) (hp : p.Perm (List.range 4)) :
    (shuffleWithCorrect p [a, b, c, d] k).1.getD (shuffleWithCorrect p [a, b, c, d] k).2 "" =
      [a, b, c, d].getD k "" := by
  have hkp : k ∈ p := hp.mem_iff.mpr (List.mem_range.mpr hk)
  have hany : (p.map (fun i => (i, [a, b, c, d].getD i ""))).any (fun q => q.1 == k) = true := by
    simp only [List.any_eq_true, List.mem_map]
    exact ⟨(k, [a, b, c, d].getD k ""), ⟨k, hkp, rfl⟩, by simp⟩
  simp only [shuffleWithCorrect, applyShuffle]
  rw [if_pos hany, findIdx_pairs, List.map_map]
  exact getD_map_findIdx p (fun i => [a, b, c, d].getD i "") k hkp

/-- Witness for C3 at a concrete shuffle. -/
theorem shuffle_round_trip_witness :
    2 < 4 ∧ ([3, 2, 1, 0] : List Nat).Perm (List.range 4) ∧
    (shuffleWithCorrect [3, 2, 1, 0] ["w", "x", "y", "z"] 2).1.getD
        (shuffleWithCorrect [3, 2, 1, 0] ["w", "x", "y", "z"] 2).2 "" =
      ["w", "x", "y", "z"].getD 2 "" := by
  refine ⟨by decide, by decide, ?_⟩
  exact shuffle_round_trip "w" "x" "y" "z" 2 [3, 2, 1, 0] (by decide) (by decide)

/-- Claim C4: on the canonical raw text, extraction yields the question
`What is 2+2?`, the pre-shuffle options `3,4,5,6` in order, and
pre-shuffle correct index 1 (letter B), for every topic. -/
theorem concrete_extraction_example (topic : String) :
    extractQuestion topic
        (splitLines "Question: What is 2+2?\nA: 3\nB: 4\nC: 5\nD: 6\nCorrect: B") =
      "What is 2+2?" ∧
    extractOptions topic
        (splitLines "Question: What is 2+2?\nA: 3\nB: 4\nC: 5\nD: 6\nCorrect: B") =
      ["3", "4", "5", "6"] ∧
    correct_index (splitLines "Question: What is 2+2?\nA: 3\nB: 4\nC: 5\nD: 6\nCorrect: B") =
      1 := by
  refine ⟨?_, ?_, by decide⟩
  · have hf : (splitLines "Question: What is 2+2?\nA: 3\nB: 4\nC: 5\nD: 6\nCorrect: B").findSome?
        lineQuestion = some "What is 2+2?" := by decide
    unfold extractQuestion
    rw [hf]
    exact if_neg (by decide)
  · have hc : extractOptionsCore
        (splitLines "Question: What is 2+2?\nA: 3\nB: 4\nC: 5\nD: 6\nCorrect: B") =
        ["3", "4", "5", "6"] := by decide
    unfold extractOptions
    rw [hc]
    rfl

/-- Claim C5 counterexample: on `create 3 quizzes about HTML` the classifier
makes the topic `zes about html`, not `html`: the alternation of
bot.py line 253 matches `quiz` before `quizzes`, so only the `quiz` prefix
of `quizzes` is removed and `about` is never a trigger word. -/
theorem classify_topic_counterexample :
    classify "create 3 quizzes about HTML" = Intent.generateQuiz "zes about html" 3 ∧
    classify "create 3 quizzes about HTML" ≠ Intent.generateQuiz "html" 3 := by
  constructor
  · decide
  · decide

/-- Claim C5 as amended: `create 3 quizzes about HTML` classifies as quiz
generation with count 3 and topic `zes about html` (the lowered text with
the first-matching alternative of create/make/quiz/quizzes/question/
questions/digit-run removed at each position, then trimmed), and
`hello there` classifies as conversation with the trimmed text passed
through. -/
theorem classify_examples :
    classify "create 3 quizzes about HTML" = Intent.generateQuiz "zes about html" 3 ∧
    classify "hello there" = Intent.converse "hello there" := by
  constructor
  · decide
  · decide

/-- Claim C1: for every topic, every raw model text and every shuffle
outcome, `generate_quiz` produces a structurally valid quiz: exactly 4
options, a non-empty question, and a correct index in [0,3].  The embedded
function is total, which models the no-throw guarantee. -/
theorem extract_returns_valid_quiz (topic raw : String) (p : List Nat)
    (hp : p.Perm (List.range 4)) :
    (generate_quiz topic raw p).options.length = 4 ∧
    (generate_quiz topic raw p).question ≠ "" ∧
    (generate_quiz topic raw p).correctIndex < 4 := by
  have hplen : p.length = 4 := by simpa using hp.length_eq
  refine ⟨?_, ?_, ?_⟩
  · show ((applyShuffle p (extractOptions topic (splitLines raw))).map Prod.snd).length = 4
    simp [applyShuffle, hplen]
  · exact extractQuestion_ne_empty topic (splitLines raw)
  · show (match extractCorrectLetter (splitLines raw) with
      | none => 0
      | some L =>
        (shuffleWithCorrect p (extractOptions topic (splitLines raw)) (L.toNat - 65)).2) < 4
    cases hL : extractCorrectLetter (splitLines raw) with
    | none => show (0 : Nat) < 4; decide
    | some L =>
      dsimp only
      simp only [shuffleWithCorrect, applyShuffle]
      by_cases hany :
          ((p.map (fun i => (i, (extractOptions topic (splitLines raw)).getD i ""))).any
            fun q => q.1 == L.toNat - 65) = true
      · rw [if_pos hany]
        have hlt := List.findIdx_lt_length_of_exists (List.any_eq_true.mp hany)
        simpa [hplen] using hlt
      · rw [if_neg hany]
        decide

/-- Witness for C1 on the empty raw text and the identity shuffle. -/
theorem extract_returns_valid_quiz_witness :
    ([0, 1, 2, 3] : List Nat).Perm (List.range 4) ∧
    ((generate_quiz "physics" "" [0, 1, 2, 3]).options.length = 4 ∧
     (generate_quiz "physics" "" [0, 1, 2, 3]).question ≠ "" ∧
     (generate_quiz "physics" "" [0, 1, 2, 3]).correctIndex < 4) := by
  refine ⟨by decide, ?_⟩
  exact extract_returns_valid_quiz "physics" "" [0, 1, 2, 3] (by decide)

/-- Claim C2 counterexample: on a raw text with no correct-answer marker
and the shuffle that swaps the first two options, the returned index 0
points at the string `beta` that the shuffle moved to the front, not at
`alpha`, the string at position 0 of the pre-shuffle list, so the default
is not remapped through the shuffle as the claim states. -/
theorem default_index_not_remapped_counterexample :
    extractCorrectLetter (splitLines "Which one?\nA: alpha\nB: beta\nC: gamma\nD: delta") =
      none ∧
    ([1, 0, 2, 3] : List Nat).Perm (List.range 4) ∧
    (generate_quiz "t" "Which one?\nA: alpha\nB: beta\nC: gamma\nD: delta"
        [1, 0, 2, 3]).correctIndex = 0 ∧
    (generate_quiz "t" "Which one?\nA: alpha\nB: beta\nC: gamma\nD: delta"
        [1, 0, 2, 3]).options.getD 0 "" = "beta" ∧
    (extractOptions "t"
        (splitLines "Which one?\nA: alpha\nB: beta\nC: gamma\nD: delta")).getD 0 "" =
      "alpha" ∧
    ("beta" : String) ≠ "alpha" := by
  refine ⟨by decide, by decide, by decide, by decide, by decide, by decide⟩

/-- Claim C2 as amended: when no correct-answer marker can be parsed, the
returned correctIndex is literally 0, an index into the post-shuffle list
(bot.py lines 168-169); it is not remapped through the shuffle. -/
theorem default_index_is_zero_post_shuffle (topic raw : String) (p : List Nat)
    (h : extractCorrectLetter (splitLines raw) = none) :
    (generate_quiz topic raw p).correctIndex = 0 := by
  have hdef : (generate_quiz topic raw p).correctIndex =
      (match extractCorrectLetter (splitLines raw) with
        | none => 0
        | some L =>
          (shuffleWithCorrect p (extractOptions topic (splitLines raw)) (L.toNat - 65)).2) :=
    rfl
  rw [hdef, h]

/-- Witness for the amended C2. -/
theorem default_index_is_zero_post_shuffle_witness :
    extractCorrectLetter (splitLines "Pick!\nA: one\nB: two") = none ∧
    (generate_quiz "t" "Pick!\nA: one\nB: two" [2, 0, 3, 1]).correctIndex = 0 := by
  refine ⟨by decide, ?_⟩
  exact default_index_is_zero_post_shuffle "t" "Pick!\nA: one\nB: two" [2, 0, 3, 1] (by decide)

/-- Skipping a line that matches neither question rule leaves the extracted
question unchanged. -/
theorem extractQuestion_cons_none (topic : String) (l : String) (ls : List String)
    (h : lineQuestion l = none) :
    extractQuestion topic (l :: ls) = extractQuestion topic ls := by
  unfold extractQuestion
  rw [List.findSome?_cons, h]

/-- A line matching either question rule produces the per-line value, with
the prefix rule tried first (bot.py lines 104-112). -/
theorem lineQuestion_eq_of_match (l : String)
    (h : questionPrefixMatches l = true ∨ l.data.contains '?' = true) :
    lineQuestion l =
      some (if questionPrefixMatches l then questionRemainder l
        else String.mk (trimChars l.data)) := by
  by_cases hp : questionPrefixMatches l = true
  · simp [lineQuestion, hp]
  · rcases h with h | h
    · exact absurd h hp
    · have h2 : '?' ∈ l.data := by simpa using h
      simp [lineQuestion, hp, h2]

/-- Claim C7 counterexample: an earlier line containing `?` preempts a
later line carrying the `question` prefix, so the prefix rule does not
take global precedence over the question-mark heuristic. -/
theorem question_scan_order_counterexample :
    (∃ l, l ∈ splitLines "Is this right?\nQuestion: Real deal" ∧
      questionPrefixMatches l = true) ∧
    extractQuestion "t" (splitLines "Is this right?\nQuestion: Real deal") =
      "Is this right?" ∧
    questionRemainder "Question: Real deal" = "Real deal" ∧
    ("Is this right?" : String) ≠ "Real deal" := by
  refine ⟨⟨"Question: Real deal", by decide, by decide⟩, by decide, by decide, by decide⟩

/-- Claim C7 as amended: the question comes from the first line, in scan
order, that matches either rule; on that line the prefix rule is checked
before the question-mark heuristic; an empty stripped remainder, or no
matching line at all, yields the synthesized default question. -/
theorem question_first_match_rule :
    (∀ (topic : String) (pre : List String) (l : String) (post : List String),
        (∀ l2 ∈ pre, questionPrefixMatches l2 = false ∧ l2.data.contains '?' = false) →
        (questionPrefixMatches l = true ∨ l.data.contains '?' = true) →
        extractQuestion topic (pre ++ l :: post) =
          (if (if questionPrefixMatches l then questionRemainder l
              else String.mk (trimChars l.data)) = "" then defaultQuestion topic
           else if questionPrefixMatches l then questionRemainder l
           else String.mk (trimChars l.data))) ∧
    (∀ (topic : String) (lines : List String),
        (∀ l ∈ lines, questionPrefixMatches l = false ∧ l.data.contains '?' = false) →
        extractQuestion topic lines = defaultQuestion topic) := by
  constructor
  · intro topic pre l post hpre hl
    induction pre with
    | nil =>
      rw [List.nil_append]
      unfold extractQuestion
      rw [List.findSome?_cons, lineQuestion_eq_of_match l hl]
    | cons l2 pre ih =>
      have h2 := hpre l2 (List.mem_cons_self l2 pre)
      have hq : '?' ∉ l2.data := by simpa using h2.2
      have hnone : lineQuestion l2 = none := by
        simp [lineQuestion, h2.1, hq]
      rw [List.cons_append, extractQuestion_cons_none topic l2 _ hnone]
      exact ih (fun l3 h3 => hpre l3 (List.mem_cons_of_mem l2 h3))
  · intro topic lines hlines
    induction lines with
    | nil => rfl
    | cons l2 ls ih =>
      have h2 := hlines l2 (List.mem_cons_self l2 ls)
      have hq : '?' ∉ l2.data := by simpa using h2.2
      have hnone : lineQuestion l2 = none := by
        simp [lineQuestion, h2.1, hq]
      rw [extractQuestion_cons_none topic l2 _ hnone]
      exact ih (fun l3 h3 => hlines l3 (List.mem_cons_of_mem l2 h3))

/-- Witness for the amended C7: a line that both carries the prefix and
contains a question mark, behind one non-matching line; and an all
non-matching list. -/
theorem question_first_match_rule_witness :
    ((∀ l2 ∈ (["no match here"] : List String),
        questionPrefixMatches l2 = false ∧ l2.data.contains '?' = false) ∧
     (questionPrefixMatches "Question- Mixed? line" = true ∨
      ("Question- Mixed? line" : String).data.contains '?' = true) ∧
     extractQuestion "t" (["no match here"] ++ "Question- Mixed? line" :: ["tail?"]) =
       (if (if questionPrefixMatches "Question- Mixed? line"
            then questionRemainder "Question- Mixed? line"
            else String.mk (trimChars ("Question- Mixed? line" : String).data)) = ""
          then defaultQuestion "t"
        else if questionPrefixMatches "Question- Mixed? line"
            then questionRemainder "Question- Mixed? line"
            else String.mk (trimChars ("Question- Mixed? line" : String).data))) ∧
    ((∀ l ∈ (["alpha", "beta"] : List String),
        questionPrefixMatches l = false ∧ l.data.contains '?' = false) ∧
     extractQuestion "phys" ["alpha", "beta"] = defaultQuestion "phys") := by
  refine ⟨⟨by decide, by decide, ?_⟩, ⟨by decide, ?_⟩⟩
  · exact question_first_match_rule.1 "t" ["no match here"] "Question- Mixed? line" ["tail?"]
      (by decide) (by decide)
  · exact question_first_match_rule.2 "phys" ["alpha", "beta"] (by decide)

/-- Claim C8: whenever the strict and loose passes together find fewer
than 4 options, the final list has exactly 4 entries and its tail is the
synthetic placeholders `{topic} Option {letter}`, the letter advancing
with the current option count. -/
theorem option_padding_spec (topic : String) (lines : List String)
    (h : (extractOptionsCore lines).length < 4) :
    extractOptions topic lines =
      extractOptionsCore lines ++
        (List.range (4 - (extractOptionsCore lines).length)).map
          (fun j => topic ++ " Option " ++
            String.mk [Char.ofNat (65 + (extractOptionsCore lines).length + j)]) ∧
    (extractOptions topic lines).length = 4 := by
  exact ⟨padOptions_spec topic _ (Nat.le_of_lt h), extractOptions_length topic lines⟩

/-- Witness for C8: only options A and B are present, so C and D become
placeholders naming the topic. -/
theorem option_padding_spec_witness :
    (extractOptionsCore (splitLines "Q?\nA: one\nB: two")).length < 4 ∧
    extractOptions "math" (splitLines "Q?\nA: one\nB: two") =
      extractOptionsCore (splitLines "Q?\nA: one\nB: two") ++
        (List.range (4 - (extractOptionsCore (splitLines "Q?\nA: one\nB: two")).length)).map
          (fun j => "math" ++ " Option " ++
            String.mk [Char.ofNat
              (65 + (extractOptionsCore (splitLines "Q?\nA: one\nB: two")).length + j)]) ∧
    (extractOptions "math" (splitLines "Q?\nA: one\nB: two")).length = 4 := by
  refine ⟨by decide, ?_⟩
  exact option_padding_spec "math" (splitLines "Q?\nA: one\nB: two") (by decide)

/-- A head-position match of the correct-answer pattern only ever returns
the uppercased form of a letter from the A-D class. -/
theorem matchCorrectAt_shape {w s : List Char} {L : Char}
    (h : matchCorrectAt w s = some L) :
    ∃ c, isOptLetter c = true ∧ L = c.toUpper := by
  unfold matchCorrectAt at h
  split at h
  · split at h
    · rename_i c _ _
      split at h
      · exact ⟨c, by assumption, (Option.some.inj h).symm⟩
      · exact absurd h (by simp)
    · exact absurd h (by simp)
  · exact absurd h (by simp)

/-- The position scan inherits the letter shape. -/
theorem searchWord_shape {w : List Char} {s : List Char} {L : Char}
    (h : searchWord w s = some L) :
    ∃ c, isOptLetter c = true ∧ L = c.toUpper := by
  induction s with
  | nil => simp [searchWord] at h
  | cons a as ih =>
    rw [searchWord] at h
    cases hm : matchCorrectAt w (a :: as) with
    | some L2 =>
      rw [hm] at h
      obtain rfl : L2 = L := Option.some.inj h
      exact matchCorrectAt_shape hm
    | none =>
      rw [hm] at h
      exact ih h

/-- Any letter the end-to-end scan extracts is the uppercased form of an
A-D class character. -/
theorem extractCorrectLetter_shape {lines : List String} {L : Char}
    (h : extractCorrectLetter lines = some L) :
    ∃ c, isOptLetter c = true ∧ L = c.toUpper := by
  unfold extractCorrectLetter at h
  cases hm : lines.findSome? (fun l => searchWord "correct".data l.data) with
  | some L2 =>
    rw [hm] at h
    obtain rfl : L2 = L := Option.some.inj h
    obtain ⟨l, _, hl⟩ := List.exists_of_findSome?_eq_some hm
    exact searchWord_shape hl
  | none =>
    rw [hm] at h
    obtain ⟨l, _, hl⟩ := List.exists_of_findSome?_eq_some h
    exact searchWord_shape hl

/-- Uppercasing an A-D class character lands in positions 0-3. -/
theorem optLetter_toUpper_lt {c : Char} (h : isOptLetter c = true) :
    c.toUpper.toNat - 65 < 4 := by
  simp only [isOptLetter, Bool.or_eq_true, beq_iff_eq] at h
  rcases h with ((((((h | h) | h) | h) | h) | h) | h) | h <;> subst h <;> decide

/-- Claim C9: when a correct letter L is determined, the pre-shuffle
correct index is its alphabetic position (A=0..D=3) — the defensive clamp
never fires — and it depends on the scanned letter only, not on which
lines supplied the options; concretely, with option lines out of letter
order (`B:` before `A:`) the letter B selects the option from the
`A:`-labeled line, and with missing letters it selects a synthetic
placeholder. -/
theorem correct_index_from_letter :
    (∀ (lines : List String) (L : Char), extractCorrectLetter lines = some L →
        L.toNat - 65 < 4 ∧ correct_index lines = L.toNat - 65) ∧
    (∀ lines1 lines2 : List String,
        extractCorrectLetter lines1 = extractCorrectLetter lines2 →
        correct_index lines1 = correct_index lines2) ∧
    (extractCorrectLetter (splitLines "Mystery?\nB: beta\nA: alpha\nCorrect: B") =
        some 'B' ∧
      correct_index (splitLines "Mystery?\nB: beta\nA: alpha\nCorrect: B") = 1 ∧
      (extractOptions "t" (splitLines "Mystery?\nB: beta\nA: alpha\nCorrect: B")).getD 1 "" =
        "alpha") ∧
    (correct_index (splitLines "Mystery?\nA: alpha\nCorrect: D") = 3 ∧
      (extractOptions "t" (splitLines "Mystery?\nA: alpha\nCorrect: D")).getD 3 "" =
        "t Option D") := by
  refine ⟨?_, ?_, by refine ⟨by decide, by decide, by decide⟩, by refine ⟨by decide, by decide⟩⟩
  · intro lines L h
    obtain ⟨c, hc, rfl⟩ := extractCorrectLetter_shape h
    have h4 := optLetter_toUpper_lt hc
    refine ⟨h4, ?_⟩
    unfold correct_index
    rw [h]
    dsimp only
    rw [if_pos h4]
  · intro lines1 lines2 h
    unfold correct_index
    rw [h]

/-- Witness for C9's general part at a concrete input. -/
theorem correct_index_from_letter_witness :
    extractCorrectLetter (splitLines "Pick\nCorrect: C") = some 'C' ∧
    (('C' : Char).toNat - 65 < 4 ∧
      correct_index (splitLines "Pick\nCorrect: C") = ('C' : Char).toNat - 65) := by
  refine ⟨by decide, ?_⟩
  exact correct_index_from_letter.1 (splitLines "Pick\nCorrect: C") 'C' (by decide)

/-- A length-4 list is recovered from its four `getD` lookups. -/
theorem getD_four (o : List String) (h : o.length = 4) :
    [o.getD 0 "", o.getD 1 "", o.getD 2 "", o.getD 3 ""] = o := by
  rcases o with _ | ⟨a, _ | ⟨b, _ | ⟨c, _ | ⟨d, _ | ⟨e, t⟩⟩⟩⟩⟩
  · simp at h
  · simp at h
  · simp at h
  · simp at h
  · rfl
  · simp at h

/-- Claim C10: the pre-shuffle extraction is a function of the topic and
raw text alone — the returned question equals the shuffle-free extraction
for every shuffle outcome, and the returned option list is a permutation
of the shuffle-free pre-shuffle option list; only the shuffle step (the
parameter p, bot.py line 165) consumes randomness. -/
theorem extraction_deterministic (topic raw : String) (p : List Nat)
    (hp : p.Perm (List.range 4)) :
    (generate_quiz topic raw p).question = extractQuestion topic (splitLines raw) ∧
    (generate_quiz topic raw p).options.Perm
      (extractOptions topic (splitLines raw)) := by
  refine ⟨rfl, ?_⟩
  show ((applyShuffle p (extractOptions topic (splitLines raw))).map Prod.snd).Perm
    (extractOptions topic (splitLines raw))
  have h4 : (extractOptions topic (splitLines raw)).length = 4 :=
    extractOptions_length topic (splitLines raw)
  unfold applyShuffle
  rw [List.map_map]
  have hmap := hp.map (fun i => (extractOptions topic (splitLines raw)).getD i "")
  have hrange : (List.range 4).map
      (fun i => (extractOptions topic (splitLines raw)).getD i "") =
      extractOptions topic (splitLines raw) := by
    have : List.range 4 = [0, 1, 2, 3] := rfl
    rw [this]
    simpa using getD_four _ h4
  rw [hrange] at hmap
  exact hmap

/-- Witness for C10 at a concrete raw text and shuffle. -/
theorem extraction_deterministic_witness :
    ([2, 3, 0, 1] : List Nat).Perm (List.range 4) ∧
    ((generate_quiz "t" "Question: Ten?\nA: 1\nB: 2\nC: 3\nD: 4\nAnswer: C"
        [2, 3, 0, 1]).question =
      extractQuestion "t" (splitLines "Question: Ten?\nA: 1\nB: 2\nC: 3\nD: 4\nAnswer: C") ∧
     (generate_quiz "t" "Question: Ten?\nA: 1\nB: 2\nC: 3\nD: 4\nAnswer: C"
        [2, 3, 0, 1]).options.Perm
      (extractOptions "t"
        (splitLines "Question: Ten?\nA: 1\nB: 2\nC: 3\nD: 4\nAnswer: C"))) := by
  refine ⟨by decide, ?_⟩
  exact extraction_deterministic "t" "Question: Ten?\nA: 1\nB: 2\nC: 3\nD: 4\nAnswer: C"
    [2, 3, 0, 1] (by decide)

/-- An always-succeeding delivery sink drives the loop through exactly k
further iterations, each making one client call and one delivery. -/
theorem runBatch_always (k : Nat) :
    ∀ s : BatchState,
      runBatch (fun _ => true) (s.total_sent + k) k s =
        some ⟨s.total_sent + k, s.gen_calls + k, s.attempts + k⟩ := by
  induction k with
  | zero =>
    intro s
    simp [runBatch]
  | succ k ih =>
    intro s
    have hstep : batchStep (fun _ => true) s =
        ⟨s.total_sent + 1, s.gen_calls + 1, s.attempts + 1⟩ := rfl
    have h2 := ih ⟨s.total_sent + 1, s.gen_calls + 1, s.attempts + 1⟩
    simp only [runBatch]
    rw [if_pos (by omega)]
    rw [hstep]
    simp only at h2
    have e1 : s.total_sent + 1 + k = s.total_sent + (k + 1) := by omega
    have e2 : s.gen_calls + 1 + k = s.gen_calls + (k + 1) := by omega
    have e3 : s.attempts + 1 + k = s.attempts + (k + 1) := by omega
    rw [e1, e2, e3] at h2
    exact h2

/-- Claim C6: with an always-succeeding sink the loop makes exactly count
client invocations and reports count sent; a failed delivery leaves the
sent counter unchanged, still costs one fresh generation (client call),
and the loop continues rather than aborting. -/
theorem batch_loop_invariant (count : Nat) :
    runBatch (fun _ => true) count count ⟨0, 0, 0⟩ = some ⟨count, count, count⟩ ∧
    (∀ (deliver : Nat → Bool) (s : BatchState), deliver s.attempts = false →
      (batchStep deliver s).total_sent = s.total_sent ∧
      (batchStep deliver s).gen_calls = s.gen_calls + 1 ∧
      ∀ fuel : Nat, s.total_sent < count →
        runBatch deliver count (fuel + 1) s =
          runBatch deliver count fuel (batchStep deliver s)) := by
  constructor
  · have h := runBatch_always count ⟨0, 0, 0⟩
    simpa using h
  · intro deliver s hfail
    refine ⟨by simp [batchStep, hfail], by simp [batchStep], ?_⟩
    intro fuel hlt
    simp [runBatch, hlt]

/-- Witness for C6: a batch of 3 with an always-succeeding sink, and one
failing first delivery. -/
theorem batch_loop_invariant_witness :
    (fun n : Nat => n != 0) (BatchState.mk 0 0 0).attempts = false ∧
    (BatchState.mk 0 0 0).total_sent < 3 ∧
    runBatch (fun _ => true) 3 3 ⟨0, 0, 0⟩ = some ⟨3, 3, 3⟩ ∧
    (batchStep (fun n => n != 0) ⟨0, 0, 0⟩).total_sent = 0 ∧
    (batchStep (fun n => n != 0) ⟨0, 0, 0⟩).gen_calls = 0 + 1 ∧
    runBatch (fun n => n != 0) 3 (2 + 1) ⟨0, 0, 0⟩ =
      runBatch (fun n => n != 0) 3 2 (batchStep (fun n => n != 0) ⟨0, 0, 0⟩) := by
  have h := batch_loop_invariant 3
  have h2 := h.2 (fun n => n != 0) ⟨0, 0, 0⟩ (by decide)
  exact ⟨by decide, by decide, h.1, h2.1, h2.2.1, h2.2.2 2 (by decide)⟩
